import Mathlib

/-!
venus-js: the linter configuration `.eslintrc.js`

The repository's only source file assigns one object literal to
`module.exports`.  The literal is embedded here as an untyped JavaScript
value (`JSValue`), field for field and in source order, and the properties
of the configuration are proved by reading that value.

The linting engine that consumes the configuration is not part of the
repository.  Where a property speaks about what the engine does with the
configuration (merging presets, reporting empty blocks), the engine is
modelled from the specification; those definitions are marked as such.
-/

/-! ## JavaScript values -/

/-- The JavaScript values that occur in the configuration literal: booleans,
strings, array literals and object literals (ordered key/value lists). -/
inductive JSValue where
  | bool (b : Bool)
  | str (s : String)
  | arr (items : List JSValue)
  | obj (fields : List (String × JSValue))

namespace JSValue

/-- Property read `v[key]` on an object literal; `none` stands for
`undefined` (missing key, or `v` is not an object). -/
def get : JSValue → String → Option JSValue
  | obj fields, key => fields.lookup key
  | _, _ => none

/-- Own property names of an object literal, in source order
(`Object.keys`). -/
def keys : JSValue → List String
  | obj fields => fields.map Prod.fst
  | _ => []

/-- Own property values of an object literal, in source order
(`Object.values`). -/
def values : JSValue → List JSValue
  | obj fields => fields.map Prod.snd
  | _ => []

/-- Test `typeof v === "boolean"`. -/
def isBool : JSValue → Bool
  | bool _ => true
  | _ => false

/-- Test `typeof v === "string"`. -/
def isStr : JSValue → Bool
  | str _ => true
  | _ => false

/-- Test: an object literal. -/
def isObj : JSValue → Bool
  | obj _ => true
  | _ => false

/-- The string held by a string value. -/
def asStr : JSValue → Option String
  | str s => some s
  | _ => none

/-- The strings of an array all of whose items are strings; `none` when the
value is not an array or some item is not a string. -/
def asStrList : JSValue → Option (List String)
  | arr items => items.mapM asStr
  | _ => none

/-- Test: a rule entry `[severity, options]`, a two-item array of a severity
string (`"off"`, `"warn"` or `"error"`) and an options object. -/
def isRuleEntry : JSValue → Bool
  | arr [str sev, obj _] => sev == "off" || sev == "warn" || sev == "error"
  | _ => false

end JSValue

/-! ## The source file -/

/-- The object literal assigned to `module.exports` in `.eslintrc.js`. -/
def module.exports : JSValue :=
  .obj [
    ("root", .bool false),
    ("parser", .str "@typescript-eslint/parser"),
    ("plugins", .arr [
      .str "@typescript-eslint"
    ]),
    ("extends", .arr [
      .str "eslint:recommended",
      .str "plugin:@typescript-eslint/recommended"
    ]),
    ("rules", .obj [
      ("no-empty", .arr [ .str "error", .obj [("allowEmptyCatch", .bool true)] ])
    ])
  ]

/-- The `plugins` list of a configuration (empty when absent or malformed). -/
def pluginsOf (cfg : JSValue) : List String :=
  ((cfg.get "plugins").bind JSValue.asStrList).getD []

/-- The `extends` list of a configuration (empty when absent or malformed). -/
def extendsOf (cfg : JSValue) : List String :=
  ((cfg.get "extends").bind JSValue.asStrList).getD []

/-- The entry of rule `name` in the `rules` object of a configuration. -/
def ruleOf (cfg : JSValue) (name : String) : Option JSValue :=
  (cfg.get "rules").bind (fun rules => rules.get name)

/-- The plugin an `extends` entry of the form `plugin:<name>/<preset>` refers
to: the text between the leading `plugin:` and the last `/`.  Entries of any
other form name no plugin. -/
def pluginOfExtends (entry : String) : Option String :=
  let marker := "plugin:".toList
  let chars := entry.toList
  if marker.isPrefixOf chars then
    match (chars.drop marker.length).reverse.dropWhile (fun c => c != '/') with
    | [] => none
    | _ :: revName => some (String.mk revName.reverse)
  else none

/-- Test: identifier `ident` lies in the package namespace `scope`, that is,
it reads `<scope>/<something>`. -/
def inNamespace (scope ident : String) : Bool :=
  (scope.toList ++ ['/']).isPrefixOf ident.toList && (scope.length + 1 < ident.length)

/-! ## The consuming tool, as the specification describes it -/

/-- Modelled from the spec: a rule set of the external linting tool, "a
mapping from rule name to a severity/options pair"; a preset named in
`extends` contributes one.  The tool and its presets are not part of the
repository. -/
abbrev RuleSet := String → Option JSValue

/-- Modelled from the spec: layering one rule set on top of another, the
upper one "overriding" the lower one for every rule it sets.  The merge is
done by the external linting tool, which the repository does not contain. -/
def layer (lower upper : RuleSet) : RuleSet := fun name =>
  match upper name with
  | some setting => some setting
  | none => lower name

/-- Modelled from the spec: the presets named in `extends` are merged "in
order, later entries overriding earlier ones".  `presets` assigns a rule set
to every preset name; the merge belongs to the external linting tool. -/
def mergeExtends (presets : String → RuleSet) (names : List String) : RuleSet :=
  names.foldl (fun acc name => layer acc (presets name)) (fun _ => none)

/-- Modelled from the spec: the effective rule settings of a configuration,
its `rules` being "local overrides layered on top of the extended presets".
Computed by the external linting tool, which the repository does not
contain. -/
def effectiveRules (cfg : JSValue) (presets : String → RuleSet) : RuleSet :=
  layer (mergeExtends presets (extendsOf cfg)) (ruleOf cfg)

/-- Modelled from the spec: the two kinds of block the rule `no-empty`
tells apart, an exception-handling (catch) block and any other block.  Source
files are input of the external linting tool. -/
inductive BlockKind where
  | plain
  | catchClause
  deriving DecidableEq, Repr

/-- Modelled from the spec: a source file as the rule `no-empty` sees it.  A
piece of code is a statement without a block, two pieces in sequence, an
empty block, or a block around a piece of code.  Parsing is done by the
external linting tool. -/
inductive Source where
  | stmt : Source
  | seq : Source → Source → Source
  | emptyBlock : BlockKind → Source
  | block : BlockKind → Source → Source

/-- Test: the source contains an empty block of kind `kind`, at any depth. -/
def Source.hasEmptyBlock (kind : BlockKind) : Source → Bool
  | stmt => false
  | seq a b => a.hasEmptyBlock kind || b.hasEmptyBlock kind
  | emptyBlock k => decide (k = kind)
  | block _ body => body.hasEmptyBlock kind

/-- A violation reported by the linting tool: the rule and the severity. -/
structure Message where
  ruleId : String
  severity : String
  deriving DecidableEq, Repr

/-- Modelled from the spec: the rule `no-empty`, under which "empty block
bodies are flagged except empty exception-handling blocks", the exception
applying when the option `allowEmptyCatch` is set.  The result is the number
of blocks flagged.  The rule is implemented by the external linting tool. -/
def noEmptyReports (allowEmptyCatch : Bool) : Source → Nat
  | .stmt => 0
  | .seq a b => noEmptyReports allowEmptyCatch a + noEmptyReports allowEmptyCatch b
  | .emptyBlock .plain => 1
  | .emptyBlock .catchClause => if allowEmptyCatch then 0 else 1
  | .block _ body => noEmptyReports allowEmptyCatch body

/-- The boolean option `name` of a rule entry `[severity, options]`; an
option that is absent, or not a boolean, counts as false. -/
def ruleOption (name : String) : List JSValue → Bool
  | [options] =>
    match options.get name with
    | some (.bool b) => b
    | _ => false
  | _ => false

/-- Modelled from the spec: the `no-empty` violations the external linting
tool reports for a source file under a configuration.  The rule runs with the
severity and options of its effective setting; a rule that is not set, or set
to `"off"`, reports nothing. -/
def lint (cfg : JSValue) (presets : String → RuleSet) (src : Source) : List Message :=
  match effectiveRules cfg presets "no-empty" with
  | some (.arr (.str severity :: rest)) =>
    if severity == "off" then []
    else List.replicate (noEmptyReports (ruleOption "allowEmptyCatch" rest) src)
      { ruleId := "no-empty", severity := severity }
  | _ => []

/-! ## Reading the configuration -/

/-- The `extends` list of the configuration, as written in the source. -/
theorem extendsOf_exports :
    extendsOf module.exports =
      ["eslint:recommended", "plugin:@typescript-eslint/recommended"] := rfl

/-- The `rules` object of the configuration sets `no-empty`. -/
theorem ruleOf_exports_noEmpty :
    ruleOf module.exports "no-empty" =
      some (.arr [.str "error", .obj [("allowEmptyCatch", .bool true)]]) := rfl

/-- The `rules` object of the configuration sets no rule but `no-empty`. -/
theorem ruleOf_exports_other (name : String) (h : name ≠ "no-empty") :
    ruleOf module.exports name = none := by
  have hne : (name == "no-empty") = false := by simpa using h
  simp [ruleOf, module.exports, JSValue.get, List.lookup, hne]

/-! ## Merging -/

/-- A rule set by the upper layer keeps the upper layer's setting. -/
theorem layer_of_upper (lower upper : RuleSet) (name : String) (setting : JSValue)
    (h : upper name = some setting) : layer lower upper name = some setting := by
  simp [layer, h]

/-- A rule the upper layer does not set keeps the lower layer's setting. -/
theorem layer_of_lower (lower upper : RuleSet) (name : String)
    (h : upper name = none) : layer lower upper name = lower name := by
  simp [layer, h]

/-- Whatever the presets contribute, the effective setting of `no-empty`
under the configuration is the one written in its `rules`. -/
theorem effectiveRules_exports_noEmpty (presets : String → RuleSet) :
    effectiveRules module.exports presets "no-empty" =
      some (.arr [.str "error", .obj [("allowEmptyCatch", .bool true)]]) :=
  layer_of_upper _ _ _ _ ruleOf_exports_noEmpty

/-! ## The rule `no-empty` -/

/-- A source with an empty block that is not a catch block is flagged at
least once, whatever the option says. -/
theorem noEmptyReports_pos (allow : Bool) (src : Source)
    (h : src.hasEmptyBlock .plain = true) : 0 < noEmptyReports allow src := by
  induction src with
  | stmt => simp [Source.hasEmptyBlock] at h
  | seq a b iha ihb =>
    simp only [Source.hasEmptyBlock, Bool.or_eq_true] at h
    simp only [noEmptyReports]
    rcases h with h | h
    · have := iha h; omega
    · have := ihb h; omega
  | emptyBlock k =>
    cases k with
    | plain => simp [noEmptyReports]
    | catchClause => simp [Source.hasEmptyBlock] at h
  | block k body ih =>
    simp only [Source.hasEmptyBlock] at h
    simpa [noEmptyReports] using ih h

/-- With empty catch blocks allowed, a source whose empty blocks are all
catch blocks is not flagged. -/
theorem noEmptyReports_zero (src : Source)
    (h : src.hasEmptyBlock .plain = false) : noEmptyReports true src = 0 := by
  induction src with
  | stmt => rfl
  | seq a b iha ihb =>
    simp only [Source.hasEmptyBlock, Bool.or_eq_false_iff] at h
    simp [noEmptyReports, iha h.1, ihb h.2]
  | emptyBlock k =>
    cases k with
    | plain => simp [Source.hasEmptyBlock] at h
    | catchClause => simp [noEmptyReports]
  | block k body ih =>
    simp only [Source.hasEmptyBlock] at h
    simpa [noEmptyReports] using ih h

/-- Under the configuration the linter reports one `no-empty` error for
every block the rule flags with `allowEmptyCatch` on. -/
theorem lint_exports (presets : String → RuleSet) (src : Source) :
    lint module.exports presets src =
      List.replicate (noEmptyReports true src)
        { ruleId := "no-empty", severity := "error" } := by
  simp only [lint, effectiveRules_exports_noEmpty]
  rfl

/-! ## The claims -/

/-- C1 (evaluation of the source): the `root` field of the exported
configuration holds the boolean `false`; it does not hold `true`, so the
configuration does not ask for discovery to stop at this file. -/
theorem C1_root_is_false :
    module.exports.get "root" = some (JSValue.bool false) ∧
      module.exports.get "root" ≠ some (JSValue.bool true) := by
  refine ⟨rfl, ?_⟩
  intro h
  have h2 : JSValue.bool false = JSValue.bool true := Option.some.inj h
  cases h2

/-- C2: in the exported configuration, `rules` maps `no-empty` to the pair
of the severity `"error"` and an options object with the one option
`allowEmptyCatch`, set to `true`. -/
theorem C2_noEmpty_entry :
    (module.exports.get "rules").bind (fun rules => rules.get "no-empty") =
      some (JSValue.arr [JSValue.str "error",
        JSValue.obj [("allowEmptyCatch", JSValue.bool true)]]) := rfl

/-- C3: for every assignment of rule sets to the presets named in `extends`,
merged in listed order with later entries overriding earlier ones, the
effective setting of `no-empty` once the configuration's `rules` are layered
on top is the local one, severity `"error"` with `allowEmptyCatch` true. -/
theorem C3_rules_win_over_extends (presets : String → RuleSet) :
    effectiveRules module.exports presets "no-empty" =
      some (JSValue.arr [JSValue.str "error",
        JSValue.obj [("allowEmptyCatch", JSValue.bool true)]]) :=
  effectiveRules_exports_noEmpty presets

/-- C4: the exported configuration has exactly the five fields `root`,
`parser`, `plugins`, `extends` and `rules`; `root` is a boolean, `parser` a
string, `plugins` a list of strings without duplicates, `extends` a list of
strings, and every value in `rules` is a severity/options pair. -/
theorem C4_schema :
    module.exports.keys = ["root", "parser", "plugins", "extends", "rules"] ∧
      (module.exports.get "root").map JSValue.isBool = some true ∧
      (module.exports.get "parser").map JSValue.isStr = some true ∧
      (∃ names, (module.exports.get "plugins").bind JSValue.asStrList = some names ∧
        names.Nodup) ∧
      (∃ names, (module.exports.get "extends").bind JSValue.asStrList = some names) ∧
      (module.exports.get "rules").map JSValue.isObj = some true ∧
      (module.exports.get "rules").map
        (fun rules => rules.values.all JSValue.isRuleEntry) = some true := by
  refine ⟨by decide, rfl, rfl, ⟨["@typescript-eslint"], rfl, by decide⟩,
    ⟨["eslint:recommended", "plugin:@typescript-eslint/recommended"], rfl⟩, rfl, by decide⟩

/-- C5: for every source file that contains an empty block which is not an
exception-handling block, and every assignment of rule sets to the presets,
linting the file with the configuration reports a `no-empty` violation of
severity `"error"`. -/
theorem C5_empty_block_reported (presets : String → RuleSet) (src : Source)
    (h : src.hasEmptyBlock BlockKind.plain = true) :
    { ruleId := "no-empty", severity := "error" } ∈ lint module.exports presets src := by
  rw [lint_exports]
  have hpos := noEmptyReports_pos true src h
  exact List.mem_replicate.mpr ⟨by omega, rfl⟩

/-- C5 at a concrete file: an empty catch block followed by an `if` whose
body is an empty block. -/
theorem C5_empty_block_reported_witness :
    (Source.seq (Source.emptyBlock BlockKind.catchClause)
        (Source.block BlockKind.plain (Source.emptyBlock BlockKind.plain))).hasEmptyBlock
        BlockKind.plain = true ∧
      { ruleId := "no-empty", severity := "error" } ∈
        lint module.exports (fun _ _ => none)
          (Source.seq (Source.emptyBlock BlockKind.catchClause)
            (Source.block BlockKind.plain (Source.emptyBlock BlockKind.plain))) :=
  ⟨by decide, C5_empty_block_reported (fun _ _ => none) _ (by decide)⟩

/-- C6: for every source file whose only empty blocks are empty catch
blocks, and every assignment of rule sets to the presets, linting the file
with the configuration reports nothing, so no `no-empty` violation. -/
theorem C6_empty_catch_allowed (presets : String → RuleSet) (src : Source)
    (h : src.hasEmptyBlock BlockKind.plain = false) :
    lint module.exports presets src = [] ∧
      ∀ m ∈ lint module.exports presets src, m.ruleId ≠ "no-empty" := by
  have hnil : lint module.exports presets src = [] := by
    rw [lint_exports, noEmptyReports_zero src h]
    rfl
  refine ⟨hnil, ?_⟩
  intro m hm
  rw [hnil] at hm
  cases hm

/-- C6 at a concrete file: a block holding a statement and an empty catch
block, where a preset tries to turn `no-empty` into a warning without the
option. -/
theorem C6_empty_catch_allowed_witness :
    (Source.block BlockKind.plain
        (Source.seq Source.stmt (Source.emptyBlock BlockKind.catchClause))).hasEmptyBlock
        BlockKind.plain = false ∧
      (Source.block BlockKind.plain
        (Source.seq Source.stmt (Source.emptyBlock BlockKind.catchClause))).hasEmptyBlock
        BlockKind.catchClause = true ∧
      lint module.exports
        (fun _ name => if name = "no-empty" then some (JSValue.arr [JSValue.str "warn"]) else none)
        (Source.block BlockKind.plain
          (Source.seq Source.stmt (Source.emptyBlock BlockKind.catchClause))) = [] :=
  ⟨by decide, by decide, (C6_empty_catch_allowed _ _ (by decide)).1⟩

/-- C7: the `rules` object of the exported configuration has the single key
`no-empty`; for every other rule name it sets nothing, so the effective
setting of every other rule is the one merged from the presets in
`extends`. -/
theorem C7_single_override :
    ((module.exports.get "rules").map JSValue.keys = some ["no-empty"]) ∧
      (∀ name : String, name ≠ "no-empty" → ruleOf module.exports name = none) ∧
      (∀ (presets : String → RuleSet) (name : String), name ≠ "no-empty" →
        effectiveRules module.exports presets name =
          mergeExtends presets (extendsOf module.exports) name) := by
  refine ⟨by decide, ruleOf_exports_other, ?_⟩
  intro presets name h
  exact layer_of_lower _ _ _ (ruleOf_exports_other name h)

/-- C7 at the rule `semi`, set to `"warn"` by the first preset only. -/
theorem C7_single_override_witness :
    "semi" ≠ "no-empty" ∧
      effectiveRules module.exports
        (fun preset name =>
          if preset = "eslint:recommended" ∧ name = "semi"
          then some (JSValue.arr [JSValue.str "warn", JSValue.obj []]) else none) "semi" =
        some (JSValue.arr [JSValue.str "warn", JSValue.obj []]) :=
  ⟨by decide, (C7_single_override.2.2 _ "semi" (by decide)).trans rfl⟩

/-- C8: every `extends` entry of the form `plugin:<name>/<preset>` names a
plugin listed in `plugins` (and the second entry is of that form, naming
`@typescript-eslint`), and the `parser` identifier lies in the namespace of
the listed plugin `@typescript-eslint`. -/
theorem C8_plugins_consistent :
    (∀ entry ∈ extendsOf module.exports, ∀ plugin,
        pluginOfExtends entry = some plugin → plugin ∈ pluginsOf module.exports) ∧
      (extendsOf module.exports).map pluginOfExtends = [none, some "@typescript-eslint"] ∧
      module.exports.get "parser" = some (JSValue.str "@typescript-eslint/parser") ∧
      "@typescript-eslint" ∈ pluginsOf module.exports ∧
      inNamespace "@typescript-eslint" "@typescript-eslint/parser" = true := by
  refine ⟨by decide, by decide, rfl, by decide, by decide⟩

/-- C9: the `extends` list is `eslint:recommended` followed by
`plugin:@typescript-eslint/recommended`, and under the merge in which later
entries override earlier ones, a rule set by both presets takes the setting
of the TypeScript preset. -/
theorem C9_extends_order :
    extendsOf module.exports =
        ["eslint:recommended", "plugin:@typescript-eslint/recommended"] ∧
      ∀ (presets : String → RuleSet) (name : String) (base ts : JSValue),
        presets "eslint:recommended" name = some base →
        presets "plugin:@typescript-eslint/recommended" name = some ts →
        mergeExtends presets (extendsOf module.exports) name = some ts := by
  refine ⟨rfl, ?_⟩
  intro presets name base ts _ hts
  rw [extendsOf_exports]
  exact layer_of_upper _ _ _ _ hts

/-- C9 at the rule `no-unused-vars`, which the base preset sets to `"error"`
and the TypeScript preset turns off. -/
theorem C9_extends_order_witness :
    mergeExtends
        (fun preset name =>
          if name = "no-unused-vars" then
            (if preset = "eslint:recommended"
              then some (JSValue.arr [JSValue.str "error", JSValue.obj []])
              else some (JSValue.arr [JSValue.str "off", JSValue.obj []]))
          else none)
        (extendsOf module.exports) "no-unused-vars" =
      some (JSValue.arr [JSValue.str "off", JSValue.obj []]) :=
  C9_extends_order.2 _ "no-unused-vars"
    (JSValue.arr [JSValue.str "error", JSValue.obj []])
    (JSValue.arr [JSValue.str "off", JSValue.obj []]) rfl rfl

/-- C8 at the entry `plugin:@typescript-eslint/recommended`: it is listed in
`extends`, it names the plugin `@typescript-eslint`, and that plugin is
listed in `plugins`. -/
theorem C8_plugins_consistent_witness :
    "plugin:@typescript-eslint/recommended" ∈ extendsOf module.exports ∧
      pluginOfExtends "plugin:@typescript-eslint/recommended" = some "@typescript-eslint" ∧
      "@typescript-eslint" ∈ pluginsOf module.exports :=
  ⟨by decide, by decide,
    C8_plugins_consistent.1 "plugin:@typescript-eslint/recommended" (by decide)
      "@typescript-eslint" (by decide)⟩
